import Mathlib

/-!
Verification of the sarus security-check subsystem, CLI command factory and
hooks against their natural-language specification.

Paths are modelled as lists of name components with the DEEPEST component
first, so that the filesystem root `/` is `[]` and the parent of a path is
its tail.  A filesystem is a finite association list from paths to a status
record (owner uid/gid, permission bits, directory flag), mirroring what
`stat`/`boost::filesystem::status` observe.
-/

namespace Sarus

/-- A path, deepest component first; `[]` is the filesystem root. -/
abbrev FsPath : Type := List String

/-- What `stat` reports for one filesystem entry. -/
structure FileStatus where
  uid : Nat
  gid : Nat
  perms : Nat
  isDir : Bool
deriving DecidableEq, Repr, Inhabited

/-- A filesystem: an association list from paths to their status. -/
structure Filesystem where
  entries : List (FsPath × FileStatus)
deriving DecidableEq, Repr

/-- Association-list lookup. -/
def lookupStatus (p : FsPath) : List (FsPath × FileStatus) → Option FileStatus
  | [] => none
  | (q, st) :: rest => if q = p then some st else lookupStatus p rest

/-- The status of a path in a filesystem. -/
def Filesystem.statusOf (fs : Filesystem) (p : FsPath) : Option FileStatus :=
  lookupStatus p fs.entries

/-- The test `boost::filesystem::exists`. -/
def Filesystem.pathExists (fs : Filesystem) (p : FsPath) : Bool :=
  (fs.statusOf p).isSome

/-- The test `boost::filesystem::is_directory`. -/
def Filesystem.isDirectory (fs : Filesystem) (p : FsPath) : Bool :=
  match fs.statusOf p with
  | some st => st.isDir
  | none => false

/-- The value `boost::filesystem::perms::perms_not_known`, returned by
`status(p).permissions()` when the path cannot be stat-ed. -/
def permsNotKnown : Nat := 0xFFFF

/-- The mode bits `status(path).permissions()` as used by the security checks. -/
def statusPermissions (fs : Filesystem) (p : FsPath) : Nat :=
  match fs.statusOf p with
  | some st => st.perms
  | none => permsNotKnown

/-- The call `common::getOwner(path)`: uid/gid of the path, failing when the path
cannot be stat-ed. -/
def getOwner (fs : Filesystem) (p : FsPath) : Except String (Nat × Nat) :=
  match fs.statusOf p with
  | some st => Except.ok (st.uid, st.gid)
  | none => Except.error "failed to retrieve owner (no such file or directory)"

/-- Whether an `Except`-valued check ran to completion without an error. -/
def succeeds {ε α : Type} : Except ε α → Bool
  | Except.ok _ => true
  | Except.error _ => false

/-- The check `SecurityChecks::checkThatPathIsRootOwned`: obtain the owner (rethrowing
the failure as an error that carries the underlying cause), then require
`uid == 0`. -/
def checkThatPathIsRootOwned (fs : Filesystem) (p : FsPath) : Except String Unit :=
  match getOwner fs p with
  | Except.error e => Except.error ("Failed to check that path is untamperable: " ++ e)
  | Except.ok (uid, _) =>
    if uid ≠ 0 then Except.error "Path must be owned by root in order to prevent tampering"
    else Except.ok ()

/-- The check `SecurityChecks::checkThatPathIsNotGroupWritableOrWorldWritable`: the mode
bits are tested against the masks `1 << 4` and `1 << 1`. -/
def checkThatPathIsNotGroupWritableOrWorldWritable (fs : Filesystem) (p : FsPath) :
    Except String Unit :=
  let permissions := statusPermissions fs p
  let isGroupWritable := permissions &&& (1 <<< 4)
  let isWorldWritable := permissions &&& (1 <<< 1)
  if isGroupWritable ≠ 0 ∨ isWorldWritable ≠ 0 then
    Except.error "Path cannot be group- or world-writable in order to prevent tampering"
  else
    Except.ok ()

/-- The parent-walking do-while loop of
`SecurityChecks::checkThatPathIsUntamperable`: check the current path, move to
the parent, and continue while the parent exists and is not the root. -/
def checkParentPaths (fs : Filesystem) : FsPath → Except String Unit
  | [] => do
    checkThatPathIsRootOwned fs []
    checkThatPathIsNotGroupWritableOrWorldWritable fs []
  | c :: rest => do
    checkThatPathIsRootOwned fs (c :: rest)
    checkThatPathIsNotGroupWritableOrWorldWritable fs (c :: rest)
    if fs.pathExists rest && !rest.isEmpty then
      checkParentPaths fs rest
    else
      pure ()

/-- The proper descendants of `path` present in the filesystem, as visited by
`recursive_directory_iterator`. -/
def subPathsOf (fs : Filesystem) (path : FsPath) : List FsPath :=
  (fs.entries.map Prod.fst).filter (fun q => decide (q ≠ path ∧ path <:+ q))

/-- The body of the `recursive_directory_iterator` loop of
`checkThatPathIsUntamperable`: both primitive checks on every visited entry. -/
def checkSubPaths (fs : Filesystem) : List FsPath → Except String Unit
  | [] => pure ()
  | q :: rest => do
    checkThatPathIsRootOwned fs q
    checkThatPathIsNotGroupWritableOrWorldWritable fs q
    checkSubPaths fs rest

/-- The check `SecurityChecks::checkThatPathIsUntamperable`: check the path and its
parents, then, if the path is a directory, recursively check every entry
below it. -/
def checkThatPathIsUntamperable (fs : Filesystem) (path : FsPath) : Except String Unit := do
  checkParentPaths fs path
  if fs.isDirectory path then
    checkSubPaths fs (subPathsOf fs path)
  else
    pure ()

/-- A path passes both primitive checks: it can be stat-ed, is root-owned,
and has neither mask bit set. -/
def passesChecks (fs : Filesystem) (p : FsPath) : Bool :=
  match fs.statusOf p with
  | some st => st.uid == 0 && (st.perms &&& (1 <<< 4) == 0) && (st.perms &&& (1 <<< 1) == 0)
  | none => false

/-- A well-formed filesystem: no duplicate entries, and existence is closed
under taking parents (every suffix of a present path is present). -/
def Filesystem.wf (fs : Filesystem) : Prop :=
  (fs.entries.map Prod.fst).Nodup ∧
  ∀ p ∈ fs.entries.map Prod.fst, ∀ q ∈ p.tails, q ∈ fs.entries.map Prod.fst

/-- The conventional POSIX group-write mode bit (octal 0020). -/
def S_IWGRP : Nat := 0o020

/-- The conventional POSIX world-write mode bit (octal 0002). -/
def S_IWOTH : Nat := 0o002

/-- A small concrete filesystem: `/usr/bin/true` with root-owned, non-writable
ancestors. -/
def demoFs : Filesystem := ⟨[
  ([], ⟨0, 0, 0o755, true⟩),
  (["usr"], ⟨0, 0, 0o755, true⟩),
  (["bin", "usr"], ⟨0, 0, 0o755, true⟩),
  (["true", "bin", "usr"], ⟨0, 0, 0o755, false⟩)]⟩

/-!
runSecurityChecks as a trace of primitive checks
------------------------------------------------

`SecurityChecks::runSecurityChecks` is a sequence of calls to the two
primitive checks and to `checkThatPathIsUntamperable`; it is embedded as the
ordered list of primitive check invocations it performs, so that "performs a
check" becomes list membership.
-/

/-- One primitive security-check invocation. -/
inductive CheckAction where
  | rootOwned (p : FsPath)
  | notGroupWritableOrWorldWritable (p : FsPath)
  | untamperable (p : FsPath)
deriving DecidableEq, Repr

/-- The OCI hooks section of `sarus.json`: optional arrays of hook paths per
lifecycle type. -/
structure OCIHooksConfig where
  prestart : Option (List FsPath)
  poststart : Option (List FsPath)
  poststop : Option (List FsPath)
deriving DecidableEq, Repr

/-- The part of the parsed `sarus.json` consumed by `runSecurityChecks`. -/
structure SarusConfig where
  securityChecks : Bool
  mksquashfsPath : FsPath
  initPath : FsPath
  runcPath : FsPath
  prefixDir : FsPath
  ociHooks : Option OCIHooksConfig
deriving DecidableEq, Repr

/-- The sweep `SecurityChecks::checkThatBinariesInSarusJsonAreUntamperable`. -/
def checkThatBinariesInSarusJsonAreUntamperable (cfg : SarusConfig) : List CheckAction :=
  [CheckAction.untamperable cfg.mksquashfsPath,
   CheckAction.untamperable cfg.initPath,
   CheckAction.untamperable cfg.runcPath]

/-- The sweep `SecurityChecks::checkThatOCIHooksAreUntamperableByType`: nothing to do
when the configuration has no hooks of the given type. -/
def checkThatOCIHooksAreUntamperableByType : Option (List FsPath) → List CheckAction
  | none => []
  | some hooks => hooks.map CheckAction.untamperable

/-- The sweep `SecurityChecks::checkThatOCIHooksAreUntamperable`: nothing to do when the
configuration has no `OCIHooks` member; otherwise the prestart, poststart and
poststop hooks in this order. -/
def checkThatOCIHooksAreUntamperable (cfg : SarusConfig) : List CheckAction :=
  match cfg.ociHooks with
  | none => []
  | some h =>
    checkThatOCIHooksAreUntamperableByType h.prestart ++
    checkThatOCIHooksAreUntamperableByType h.poststart ++
    checkThatOCIHooksAreUntamperableByType h.poststop

/-- All hook paths configured in the `OCIHooks` section. -/
def configuredHookPaths (cfg : SarusConfig) : List FsPath :=
  match cfg.ociHooks with
  | none => []
  | some h => h.prestart.getD [] ++ h.poststart.getD [] ++ h.poststop.getD []

/-- The procedure `SecurityChecks::runSecurityChecks`: always weakly check
`<prefix>/etc/sarus.json` and `<prefix>/etc/sarus.schema.json` (root-owned and
not group/world-writable, file only); then, only if the `securityChecks`
configuration flag is set, check untamperability of the configured binaries,
the OCI hooks, `<prefixDir>/openssh` and `<prefixDir>/bin/ssh_hook`. -/
def runSecurityChecks (cfg : SarusConfig) (sarusInstallationPrefixDir : FsPath) :
    List CheckAction :=
  let configFilename : FsPath := "sarus.json" :: "etc" :: sarusInstallationPrefixDir
  let configSchemaFilename : FsPath := "sarus.schema.json" :: "etc" :: sarusInstallationPrefixDir
  [CheckAction.rootOwned configFilename,
   CheckAction.notGroupWritableOrWorldWritable configFilename,
   CheckAction.rootOwned configSchemaFilename,
   CheckAction.notGroupWritableOrWorldWritable configSchemaFilename]
  ++ (if cfg.securityChecks then
        checkThatBinariesInSarusJsonAreUntamperable cfg
        ++ checkThatOCIHooksAreUntamperable cfg
        ++ [CheckAction.untamperable ("openssh" :: cfg.prefixDir),
            CheckAction.untamperable ("ssh_hook" :: "bin" :: cfg.prefixDir)]
      else [])

/-!
The CLI command-objects factory
-------------------------------

`cli::CommandObjectsFactory` keeps two `unordered_map`s from command names to
factory closures; the constructor registers eight commands via `addCommand`,
which inserts into both maps.  Command objects are represented by the kind of
command the stored closure constructs.
-/

/-- The command kinds registered by the factory constructor. -/
inductive Command where
  | help | images | load | pull | rmi | run | sshKeygen | version
deriving DecidableEq, Repr

/-- Lookup in a name-keyed map (`map.find(name)`). -/
def findCommand (n : String) : List (String × Command) → Option Command
  | [] => none
  | (k, c) :: rest => if k = n then some c else findCommand n rest

/-- Insert-or-assign, the behaviour of `unordered_map::operator[]` followed by
assignment. -/
def mapAssign (n : String) (c : Command) : List (String × Command) → List (String × Command)
  | [] => [(n, c)]
  | (k, v) :: rest => if k = n then (k, c) :: rest else (k, v) :: mapAssign n c rest

/-- The two maps of the factory: `map` (no-argument closures) and
`mapWithArguments` (closures taking CLI argument groups and a config). -/
structure CommandObjectsFactory where
  map : List (String × Command)
  mapWithArguments : List (String × Command)
deriving DecidableEq, Repr

/-- The registration `CommandObjectsFactory::addCommand`: register the command name in both
internal maps. -/
def addCommand (c : Command) (n : String) (f : CommandObjectsFactory) :
    CommandObjectsFactory :=
  { map := mapAssign n c f.map,
    mapWithArguments := mapAssign n c f.mapWithArguments }

/-- The factory constructor: register the eight commands in order. -/
def makeFactory : CommandObjectsFactory :=
  addCommand Command.version "version" <|
  addCommand Command.sshKeygen "ssh-keygen" <|
  addCommand Command.run "run" <|
  addCommand Command.rmi "rmi" <|
  addCommand Command.pull "pull" <|
  addCommand Command.load "load" <|
  addCommand Command.images "images" <|
  addCommand Command.help "help" ⟨[], []⟩

/-- The predicate `CommandObjectsFactory::isValidCommandName`. -/
def isValidCommandName (f : CommandObjectsFactory) (n : String) : Bool :=
  (findCommand n f.map).isSome

/-- The accessor `CommandObjectsFactory::getCommandNames`. -/
def getCommandNames (f : CommandObjectsFactory) : List String :=
  f.map.map Prod.fst

/-- The one-argument `CommandObjectsFactory::makeCommandObject`: validate the
name, then look it up in `map` and invoke the stored closure. -/
def makeCommandObject (f : CommandObjectsFactory) (n : String) : Except String Command :=
  if isValidCommandName f n then
    match findCommand n f.map with
    | some c => Except.ok c
    | none => Except.error "lookup after validation failed"
  else
    Except.error "Failed to make command object (invalid command name)"

/-- The two-argument overload of `makeCommandObject`: validate against `map`,
then look the name up in `mapWithArguments` (the C++ dereferences the result
without a further check; a miss there is modelled as an error). -/
def makeCommandObjectWithArguments (f : CommandObjectsFactory) (n : String) :
    Except String Command :=
  if isValidCommandName f n then
    match findCommand n f.mapWithArguments with
    | some c => Except.ok c
    | none => Except.error "lookup in mapWithArguments failed"
  else
    Except.error "Failed to make command object (invalid command name)"

/-!
The SLURM global-sync hook
--------------------------

Only the tests of the hook are among the sources; the hook itself is modelled from
the specification.  The rendezvous directory state is the list of files in
`arrival/` and in `departure/`, each carrying the owner recorded at creation.
-/

/-- One marker file in the rendezvous directory, with its owner. -/
structure SyncFile where
  name : String
  uid : Nat
  gid : Nat
deriving DecidableEq, Repr

/-- The rendezvous directory: the files under `arrival/` and `departure/`. -/
structure SyncDir where
  arrival : List SyncFile
  departure : List SyncFile
deriving DecidableEq, Repr

/-- The per-process marker file name `slurm-procid-<P>`. -/
def procidFileName (procid : Nat) : String :=
  "slurm-procid-" ++ toString procid

/-- The helper `common::createFileIfNecessary`: create the file with the given owner
unless a file of that name already exists. -/
def createFileIfNecessary (name : String) (uid gid : Nat) (dir : List SyncFile) :
    List SyncFile :=
  if dir.any (fun f => f.name == name) then dir else dir ++ [⟨name, uid, gid⟩]

/-- Modelled from the spec: `Hook::signalArrival` of the SLURM global-sync
hook (its implementation file is not among the sources, only its tests) —
create `<sync>/arrival/slurm-procid-<P>` owned by the invoking user,
create-if-not-exists. -/
def signalArrival (uid gid procid : Nat) (s : SyncDir) : SyncDir :=
  { s with arrival := createFileIfNecessary (procidFileName procid) uid gid s.arrival }

/-- Modelled from the spec: `Hook::signalDeparture`, symmetric to
`signalArrival`. -/
def signalDeparture (uid gid procid : Nat) (s : SyncDir) : SyncDir :=
  { s with departure := createFileIfNecessary (procidFileName procid) uid gid s.departure }

/-- Modelled from the spec: `Hook::allInstancesArrived` — the directory entry
count in `arrival/` equals `SLURM_NTASKS`. -/
def allInstancesArrived (ntasks : Nat) (s : SyncDir) : Bool :=
  s.arrival.length == ntasks

/-- Modelled from the spec: `Hook::allInstancesDeparted` — the directory entry
count in `departure/` equals `SLURM_NTASKS`. -/
def allInstancesDeparted (ntasks : Nat) (s : SyncDir) : Bool :=
  s.departure.length == ntasks

/-- Whether `s` begins with `pre`, over the underlying character lists. -/
def strStartsWith (s pre : String) : Bool :=
  pre.data.isPrefixOf s.data

/-- The number of distinct `slurm-procid-*` files in a directory. -/
def distinctProcidFileCount (dir : List SyncFile) : Nat :=
  (((dir.map SyncFile.name).filter (fun n => strStartsWith n "slurm-procid-")).dedup).length

/-- A rendezvous state with two arrived and two departed instances. -/
def demoSyncDir : SyncDir :=
  ⟨[⟨"slurm-procid-0", 0, 0⟩, ⟨"slurm-procid-1", 1000, 1000⟩],
   [⟨"slurm-procid-0", 0, 0⟩, ⟨"slurm-procid-1", 1000, 1000⟩]⟩

/-- The empty rendezvous state. -/
def emptySyncDir : SyncDir := ⟨[], []⟩

/-- Modelled from the spec: the activation test of the hook — the variable
`SARUS_SLURM_GLOBAL_SYNC_HOOK=1` is present in the container `process.env`
(a list of `KEY=VALUE` strings). -/
def activationVariableIsPresent (env : List String) : Bool :=
  env.any (fun e => e == "SARUS_SLURM_GLOBAL_SYNC_HOOK=1")

/-- An environment variable of the given name is set in a `KEY=VALUE` list. -/
def envVarIsSet (name : String) (env : List String) : Bool :=
  env.any (fun e => strStartsWith e (name ++ "="))

/-- Modelled from the spec: the SLURM global-sync hook participates iff the
activation variable is present and the four SLURM variables are all set. -/
def isHookEnabled (env : List String) : Bool :=
  activationVariableIsPresent env &&
  envVarIsSet "SLURM_JOB_ID" env &&
  envVarIsSet "SLURM_STEPID" env &&
  envVarIsSet "SLURM_PROCID" env &&
  envVarIsSet "SLURM_NTASKS" env

/-- Modelled from the spec: `Hook::performSynchronization` — run the
synchronization protocol when the activation condition holds, otherwise
return without error and without touching the rendezvous state. -/
def performSynchronization (doSync : SyncDir → Except String SyncDir)
    (env : List String) (s : SyncDir) : Except String SyncDir :=
  if isHookEnabled env then doSync s else Except.ok s

/-- A synchronization body that fails if ever invoked. -/
def failingSync : SyncDir → Except String SyncDir :=
  fun _ => Except.error "synchronization must not run"

/-!
The SSH hook
------------

Only the tests of the SSH hook are among the sources; the content of the files that
`SshHook::startSshDaemon` writes is modelled from the specification (and is
checked verbatim by the tests).
-/

/-- A file written by the hook: its lines and its mode bits. -/
structure WrittenFile where
  lines : List String
  mode : Nat
deriving DecidableEq, Repr

/-- The `export KEY="VALUE"` line emitted for one environment entry. -/
def exportLine (kv : String × String) : String :=
  "export " ++ kv.1 ++ "=\"" ++ kv.2 ++ "\""

/-- Modelled from the spec: step 6 of `SshHook::startSshDaemon` (the
implementation file of the hook is not among the sources) — write
`/opt/oci-hooks/dropbear/environment` from the container `process.env` as
one `export KEY="VALUE"` line per entry after a `#!/bin/sh` shebang.  The
spec gives the file mode 0644, but the in-tree test
`Helper::checkContainerHasEnvironmentFile` pins the permissions written by
the hook to `owner_all | group_read | others_read` = 0744, so the mode here
follows the test. -/
def environmentFile (env : List (String × String)) : WrittenFile :=
  ⟨"#!/bin/sh" :: env.map exportLine, 0o744⟩

/-- The path of the dropbear environment file inside the container. -/
def dropbearEnvironmentPath : String := "/opt/oci-hooks/dropbear/environment"

/-- Modelled from the spec: step 5 of `SshHook::startSshDaemon` — the file
sourced by `/etc/profile.d/ssh-hook.sh`, which sources the dropbear
environment file exactly when `$SSH_CONNECTION` is set (the shell test
`[ "$SSH_CONNECTION" ]` holds for a set, nonempty value). -/
def profileModuleSourcedFile (sshConnection : Option String) : Option String :=
  match sshConnection with
  | some v => if v = "" then none else some dropbearEnvironmentPath
  | none => none

/-- The environment of test scenario S5. -/
def demoEnv : List (String × String) :=
  [("PATH", "/bin:/usr/bin:/usr/local/bin:/sbin"),
   ("TEST1", "VariableTest1"), ("TEST2", "VariableTest2")]

/-!
The glibc hook
--------------

Only the header of the glibc hook is among the sources; the decision structure of
`GlibcHook::injectGlibcLibrariesIfNecessary` is modelled from the
specification.  The rootfs is kept abstract: the hook either returns it
untouched or applies the library-replacement step to it.
-/

/-- A glibc version as (major, minor), e.g. `2.31`. -/
abbrev GlibcVersion : Type := Nat × Nat

/-- Modelled from the spec: `GlibcHook::containerGlibcIsNewerOrSame` — the
container version is at least the host version, in lexicographic order. -/
def containerGlibcIsNewerOrSame (container host : GlibcVersion) : Bool :=
  if container.1 == host.1 then decide (host.2 ≤ container.2)
  else decide (host.1 < container.1)

/-- Modelled from the spec: `GlibcHook::injectGlibcLibrariesIfNecessary` (the
implementation file of the hook is not among the sources, only its header) — if
the container has no glibc, do nothing and exit 0; if the glibc of the container is
newer or the same as the host's, do nothing and exit 0; otherwise replace the
glibc libraries in the container.  Returns the final rootfs and exit code. -/
def injectGlibcLibrariesIfNecessary {α : Type}
    (replaceGlibcLibrariesInContainer : α → α)
    (hostLibcVersion : GlibcVersion) (containerLibcVersion : Option GlibcVersion)
    (rootfs : α) : α × Nat :=
  match containerLibcVersion with
  | none => (rootfs, 0)
  | some containerVersion =>
    if containerGlibcIsNewerOrSame containerVersion hostLibcVersion then (rootfs, 0)
    else (replaceGlibcLibrariesInContainer rootfs, 0)

lemma succeeds_bind_unit (a : Except String Unit) (f : Unit → Except String Unit) :
    succeeds (a >>= f) = (succeeds a && succeeds (f ())) := by
  cases a with
  | error e => simp [Bind.bind, Except.bind, succeeds]
  | ok u => cases u; simp [Bind.bind, Except.bind, succeeds]

lemma succeeds_pure : succeeds (pure () : Except String Unit) = true := rfl

lemma lookupStatus_isSome (p : FsPath) (l : List (FsPath × FileStatus)) :
    (lookupStatus p l).isSome = true ↔ p ∈ l.map Prod.fst := by
  induction l with
  | nil => simp [lookupStatus]
  | cons hd rest ih =>
    obtain ⟨q, st⟩ := hd
    by_cases h : q = p
    · subst h; simp [lookupStatus]
    · simp only [lookupStatus, if_neg h, List.map_cons, List.mem_cons, ih]
      constructor
      · exact Or.inr
      · rintro (h' | h')
        · exact absurd h'.symm h
        · exact h'

lemma pathExists_iff_mem (fs : Filesystem) (p : FsPath) :
    fs.pathExists p = true ↔ p ∈ fs.entries.map Prod.fst := by
  unfold Filesystem.pathExists Filesystem.statusOf
  exact lookupStatus_isSome p fs.entries

lemma succeeds_rootOwned (fs : Filesystem) (p : FsPath) :
    succeeds (checkThatPathIsRootOwned fs p) = true ↔
      ∃ st, fs.statusOf p = some st ∧ st.uid = 0 := by
  unfold checkThatPathIsRootOwned getOwner
  cases h : fs.statusOf p with
  | none => simp [succeeds]
  | some st =>
    by_cases hu : st.uid = 0
    · simp [hu, succeeds]
    · simp [hu, succeeds]

lemma succeeds_notGroupWorldWritable (fs : Filesystem) (p : FsPath) :
    succeeds (checkThatPathIsNotGroupWritableOrWorldWritable fs p) = true ↔
      (statusPermissions fs p &&& (1 <<< 4) = 0 ∧ statusPermissions fs p &&& (1 <<< 1) = 0) := by
  by_cases h : statusPermissions fs p &&& (1 <<< 4) ≠ 0 ∨ statusPermissions fs p &&& (1 <<< 1) ≠ 0
  · simp only [checkThatPathIsNotGroupWritableOrWorldWritable, if_pos h, succeeds]
    constructor
    · intro hc; cases hc
    · rintro ⟨h1, h2⟩
      rcases h with h | h
      · exact absurd h1 h
      · exact absurd h2 h
  · simp only [checkThatPathIsNotGroupWritableOrWorldWritable, if_neg h, succeeds, true_iff]
    push_neg at h
    exact h

lemma passesChecks_iff (fs : Filesystem) (p : FsPath) :
    passesChecks fs p = true ↔
      (succeeds (checkThatPathIsRootOwned fs p) = true ∧
       succeeds (checkThatPathIsNotGroupWritableOrWorldWritable fs p) = true) := by
  rw [succeeds_rootOwned, succeeds_notGroupWorldWritable]
  unfold passesChecks statusPermissions
  cases h : fs.statusOf p with
  | none =>
    constructor
    · intro hc; exact Bool.noConfusion hc
    · rintro ⟨⟨st, hst, _⟩, _⟩
      exact Option.noConfusion hst
  | some st =>
    simp only [Bool.and_eq_true, beq_iff_eq]
    constructor
    · rintro ⟨⟨hu, hg⟩, hw⟩
      exact ⟨⟨st, rfl, hu⟩, hg, hw⟩
    · rintro ⟨⟨st', hst', hu⟩, hg, hw⟩
      cases Option.some.inj hst'
      exact ⟨⟨hu, hg⟩, hw⟩

/-- The ancestor loop succeeds iff the path and every proper ancestor strictly
below the filesystem root passes both primitive checks. -/
lemma checkParentPaths_ok (fs : Filesystem) (hwf : fs.wf) (rest : FsPath) :
    ∀ (c : String), fs.pathExists (c :: rest) = true →
      (succeeds (checkParentPaths fs (c :: rest)) = true ↔
        ∀ q ∈ (c :: rest).tails, q ≠ [] → passesChecks fs q = true) := by
  induction rest with
  | nil =>
    intro c _
    unfold checkParentPaths
    rw [succeeds_bind_unit, succeeds_bind_unit]
    have hcond : ¬ ((fs.pathExists [] && !([] : FsPath).isEmpty) = true) := by simp
    rw [if_neg hcond, succeeds_pure, Bool.and_true, Bool.and_eq_true]
    rw [← passesChecks_iff]
    constructor
    · intro hp q hq hne
      have hq' : q = [c] ∨ q = [] := by simpa [List.tails] using hq
      rcases hq' with rfl | rfl
      · exact hp
      · exact absurd rfl hne
    · intro h
      exact h [c] (by simp [List.tails]) (by simp)
  | cons d rest' ih =>
    intro c hex
    have hmem : (c :: d :: rest') ∈ fs.entries.map Prod.fst :=
      (pathExists_iff_mem fs _).mp hex
    have hsub : (d :: rest') ∈ fs.entries.map Prod.fst :=
      hwf.2 _ hmem _ ((List.mem_tails _ _).mpr ⟨[c], rfl⟩)
    have hex' : fs.pathExists (d :: rest') = true := (pathExists_iff_mem fs _).mpr hsub
    unfold checkParentPaths
    rw [succeeds_bind_unit, succeeds_bind_unit]
    have hcond : (fs.pathExists (d :: rest') && !(d :: rest').isEmpty) = true := by
      simp [hex']
    rw [if_pos hcond, Bool.and_eq_true, Bool.and_eq_true, ih d hex']
    constructor
    · rintro ⟨h1, h2, h3⟩ q hq hne
      rw [List.mem_tails] at hq
      rcases List.suffix_cons_iff.mp hq with rfl | hq'
      · exact (passesChecks_iff fs _).mpr ⟨h1, h2⟩
      · exact h3 q ((List.mem_tails _ _).mpr hq') hne
    · intro h
      have hp := (passesChecks_iff fs _).mp
        (h (c :: d :: rest') ((List.mem_tails _ _).mpr List.suffix_rfl) (by simp))
      refine ⟨hp.1, hp.2, ?_⟩
      intro q hq hne
      rw [List.mem_tails] at hq
      exact h q ((List.mem_tails _ _).mpr (hq.trans (List.suffix_cons _ _))) hne

lemma checkSubPaths_ok (fs : Filesystem) (l : List FsPath) :
    succeeds (checkSubPaths fs l) = true ↔ ∀ q ∈ l, passesChecks fs q = true := by
  induction l with
  | nil => simp [checkSubPaths, succeeds, pure, Except.pure]
  | cons q rest ih =>
    unfold checkSubPaths
    rw [succeeds_bind_unit, succeeds_bind_unit, Bool.and_eq_true, Bool.and_eq_true, ih]
    constructor
    · rintro ⟨h1, h2, h3⟩ r hr
      rw [List.mem_cons] at hr
      rcases hr with rfl | hr
      · exact (passesChecks_iff fs r).mpr ⟨h1, h2⟩
      · exact h3 r hr
    · intro h
      have hq := (passesChecks_iff fs q).mp (h q (by simp))
      exact ⟨hq.1, hq.2, fun r hr => h r (by simp [hr])⟩

lemma mem_subPathsOf (fs : Filesystem) (path q : FsPath) :
    q ∈ subPathsOf fs path ↔
      (q ∈ fs.entries.map Prod.fst ∧ q ≠ path ∧ path <:+ q) := by
  unfold subPathsOf
  rw [List.mem_filter]
  simp only [decide_eq_true_eq]

/-- C1: `checkThatPathIsUntamperable(path)` succeeds if and only if `path` and
every ancestor strictly below the filesystem root is root-owned with neither
the group-write nor the world-write mask bit set, and — when `path` is a
directory — the same holds of every filesystem entry strictly below `path`.
(The do-while loop stops upon reaching the root, so the root directory itself
is not among the checked ancestors.) -/
theorem checkThatPathIsUntamperable_ok (fs : Filesystem) (c : String) (rest : FsPath)
    (hwf : fs.wf) (hex : fs.pathExists (c :: rest) = true) :
    succeeds (checkThatPathIsUntamperable fs (c :: rest)) = true ↔
      ((∀ q ∈ (c :: rest).tails, q ≠ [] → passesChecks fs q = true) ∧
       (fs.isDirectory (c :: rest) = true →
         ∀ q ∈ fs.entries.map Prod.fst, q ≠ c :: rest → (c :: rest) <:+ q →
           passesChecks fs q = true)) := by
  unfold checkThatPathIsUntamperable
  rw [succeeds_bind_unit, Bool.and_eq_true]
  rw [checkParentPaths_ok fs hwf rest c hex]
  by_cases hdir : fs.isDirectory (c :: rest) = true
  case neg =>
    rw [if_neg hdir, succeeds_pure]
    simp [hdir]
  case pos =>
    rw [if_pos hdir]
    rw [checkSubPaths_ok fs (subPathsOf fs (c :: rest))]
    simp only [hdir, eq_self_iff_true, true_implies]
    constructor
    · rintro ⟨h1, h2⟩
      refine ⟨h1, fun q hq hne hsuf => h2 q ((mem_subPathsOf fs _ q).mpr ⟨hq, hne, hsuf⟩)⟩
    · rintro ⟨h1, h2⟩
      refine ⟨h1, fun q hq => ?_⟩
      rcases (mem_subPathsOf fs _ q).mp hq with ⟨hm, hne, hsuf⟩
      exact h2 q hm hne hsuf

/-- Witness for C1: on the concrete filesystem `demoFs` the untamperability
check of `/usr/bin/true` succeeds. -/
theorem checkThatPathIsUntamperable_ok_witness :
    succeeds (checkThatPathIsUntamperable demoFs ["true", "bin", "usr"]) = true :=
  (checkThatPathIsUntamperable_ok demoFs "true" ["bin", "usr"]
    ⟨by decide, by decide⟩ (by decide)).mpr ⟨by decide, by decide⟩

/-- C2: the writability check fails exactly when the observed mode includes the
POSIX group-write bit (octal 0020) or world-write bit (octal 0002); the masks
`1 << 4` and `1 << 1` used by the code coincide with `S_IWGRP` and `S_IWOTH`. -/
theorem checkWritable_matches_posix (fs : Filesystem) (p : FsPath) :
    (succeeds (checkThatPathIsNotGroupWritableOrWorldWritable fs p) = false ↔
      (statusPermissions fs p &&& S_IWGRP ≠ 0 ∨ statusPermissions fs p &&& S_IWOTH ≠ 0)) ∧
    (1 <<< 4) = S_IWGRP ∧ (1 <<< 1) = S_IWOTH := by
  refine ⟨?_, by decide, by decide⟩
  have h := succeeds_notGroupWorldWritable fs p
  have hgrp : (1 <<< 4) = S_IWGRP := by decide
  have hoth : (1 <<< 1) = S_IWOTH := by decide
  rw [hgrp, hoth] at h
  constructor
  · intro hf
    by_contra hc
    push_neg at hc
    have := h.mpr ⟨hc.1, hc.2⟩
    rw [hf] at this
    exact absurd this (by simp)
  · intro hor
    cases hs : succeeds (checkThatPathIsNotGroupWritableOrWorldWritable fs p) with
    | false => rfl
    | true =>
      rcases h.mp hs with ⟨hg, hw⟩
      rcases hor with hbad | hbad
      · exact absurd hg hbad
      · exact absurd hw hbad

/-- C10: when the owner of a path cannot be determined (the path cannot be
stat-ed), `checkThatPathIsRootOwned` fails with an error carrying the
underlying cause, and consequently `checkThatPathIsUntamperable` on that path
fails as well rather than passing vacuously. -/
theorem rootOwned_fails_on_missing_path (fs : Filesystem) (p : FsPath)
    (h : fs.statusOf p = none) :
    succeeds (checkThatPathIsRootOwned fs p) = false ∧
    checkThatPathIsRootOwned fs p =
      Except.error ("Failed to check that path is untamperable: " ++
        "failed to retrieve owner (no such file or directory)") ∧
    succeeds (checkThatPathIsUntamperable fs p) = false := by
  have hro : checkThatPathIsRootOwned fs p =
      Except.error ("Failed to check that path is untamperable: " ++
        "failed to retrieve owner (no such file or directory)") := by
    unfold checkThatPathIsRootOwned getOwner
    rw [h]
  refine ⟨by rw [hro]; rfl, hro, ?_⟩
  unfold checkThatPathIsUntamperable
  rw [succeeds_bind_unit]
  have hpp : succeeds (checkParentPaths fs p) = false := by
    cases p with
    | nil =>
      unfold checkParentPaths
      rw [succeeds_bind_unit, hro]
      rfl
    | cons c rest =>
      unfold checkParentPaths
      rw [succeeds_bind_unit, hro]
      rfl
  rw [hpp]
  rfl

/-- Witness for C10: on the empty filesystem, checking a missing path fails. -/
theorem rootOwned_fails_on_missing_path_witness :
    succeeds (checkThatPathIsRootOwned ⟨[]⟩ ["nonexistent"]) = false ∧
    checkThatPathIsRootOwned ⟨[]⟩ ["nonexistent"] =
      Except.error ("Failed to check that path is untamperable: " ++
        "failed to retrieve owner (no such file or directory)") ∧
    succeeds (checkThatPathIsUntamperable ⟨[]⟩ ["nonexistent"]) = false :=
  rootOwned_fails_on_missing_path ⟨[]⟩ ["nonexistent"] rfl

lemma untamperable_not_in_weak (cfg : SarusConfig) (pfx p : FsPath)
    (h : CheckAction.untamperable p ∈ runSecurityChecks cfg pfx) :
    cfg.securityChecks = true := by
  cases hflag : cfg.securityChecks with
  | true => rfl
  | false =>
    unfold runSecurityChecks at h
    rw [hflag] at h
    simp at h

lemma mem_hookChecks_of_mem_configured (cfg : SarusConfig) (p : FsPath)
    (hp : p ∈ configuredHookPaths cfg) :
    CheckAction.untamperable p ∈ checkThatOCIHooksAreUntamperable cfg := by
  unfold configuredHookPaths at hp
  unfold checkThatOCIHooksAreUntamperable
  cases hcfg : cfg.ociHooks with
  | none => rw [hcfg] at hp; simp at hp
  | some h =>
    rw [hcfg] at hp
    obtain ⟨pre, post, stop⟩ := h
    show CheckAction.untamperable p ∈
      checkThatOCIHooksAreUntamperableByType pre ++
      checkThatOCIHooksAreUntamperableByType post ++
      checkThatOCIHooksAreUntamperableByType stop
    have hmem : p ∈ pre.getD [] ++ post.getD [] ++ stop.getD [] := hp
    have key : ∀ o : Option (List FsPath), p ∈ o.getD [] →
        CheckAction.untamperable p ∈ checkThatOCIHooksAreUntamperableByType o := by
      intro o hpo
      cases o with
      | none => simp at hpo
      | some l =>
        simp only [Option.getD_some] at hpo
        exact List.mem_map.mpr ⟨p, hpo, rfl⟩
    rcases List.mem_append.mp hmem with hp' | hp'
    · rcases List.mem_append.mp hp' with hp'' | hp''
      · exact List.mem_append.mpr (Or.inl (List.mem_append.mpr (Or.inl (key pre hp''))))
      · exact List.mem_append.mpr (Or.inl (List.mem_append.mpr (Or.inr (key post hp''))))
    · exact List.mem_append.mpr (Or.inr (key stop hp'))

/-- C3: for every configuration, `runSecurityChecks` begins with the weak
checks (root-owned, not group/world-writable — the file only, no ancestors) on
`<prefix>/etc/sarus.json` and `<prefix>/etc/sarus.schema.json`; and it
performs the untamperability sweeps (the mksquashfs/init/runc binaries, every
configured OCI hook path, `<prefixDir>/openssh`, `<prefixDir>/bin/ssh_hook`)
if and only if the `securityChecks` flag is true. -/
theorem runSecurityChecks_weak_always_sweeps_iff_flag
    (cfg : SarusConfig) (pfx : FsPath) :
    ((runSecurityChecks cfg pfx).take 4 =
      [CheckAction.rootOwned ("sarus.json" :: "etc" :: pfx),
       CheckAction.notGroupWritableOrWorldWritable ("sarus.json" :: "etc" :: pfx),
       CheckAction.rootOwned ("sarus.schema.json" :: "etc" :: pfx),
       CheckAction.notGroupWritableOrWorldWritable ("sarus.schema.json" :: "etc" :: pfx)]) ∧
    (cfg.securityChecks = true ↔
      (CheckAction.untamperable cfg.mksquashfsPath ∈ runSecurityChecks cfg pfx ∧
       CheckAction.untamperable cfg.initPath ∈ runSecurityChecks cfg pfx ∧
       CheckAction.untamperable cfg.runcPath ∈ runSecurityChecks cfg pfx ∧
       (∀ p ∈ configuredHookPaths cfg,
         CheckAction.untamperable p ∈ runSecurityChecks cfg pfx) ∧
       CheckAction.untamperable ("openssh" :: cfg.prefixDir) ∈ runSecurityChecks cfg pfx ∧
       CheckAction.untamperable ("ssh_hook" :: "bin" :: cfg.prefixDir) ∈
         runSecurityChecks cfg pfx)) := by
  constructor
  · unfold runSecurityChecks
    cases cfg.securityChecks <;> simp
  · constructor
    · intro hflag
      have hmem : ∀ a ∈ checkThatBinariesInSarusJsonAreUntamperable cfg
            ++ checkThatOCIHooksAreUntamperable cfg
            ++ [CheckAction.untamperable ("openssh" :: cfg.prefixDir),
                CheckAction.untamperable ("ssh_hook" :: "bin" :: cfg.prefixDir)],
          a ∈ runSecurityChecks cfg pfx := by
        intro a ha
        unfold runSecurityChecks
        rw [hflag]
        simp only [if_pos rfl]
        exact List.mem_append.mpr (Or.inr ha)
      refine ⟨?_, ?_, ?_, ?_, ?_, ?_⟩
      · exact hmem _ (by simp [checkThatBinariesInSarusJsonAreUntamperable])
      · exact hmem _ (by simp [checkThatBinariesInSarusJsonAreUntamperable])
      · exact hmem _ (by simp [checkThatBinariesInSarusJsonAreUntamperable])
      · intro p hp
        exact hmem _ (List.mem_append.mpr (Or.inl (List.mem_append.mpr (Or.inr
          (mem_hookChecks_of_mem_configured cfg p hp)))))
      · exact hmem _ (by simp)
      · exact hmem _ (by simp)
    · rintro ⟨h1, _⟩
      exact untamperable_not_in_weak cfg pfx _ h1

lemma findCommand_isSome_iff_mem (n : String) (l : List (String × Command)) :
    (findCommand n l).isSome = true ↔ n ∈ l.map Prod.fst := by
  induction l with
  | nil => simp [findCommand]
  | cons hd rest ih =>
    obtain ⟨k, c⟩ := hd
    by_cases h : k = n
    · subst h; simp [findCommand]
    · simp only [findCommand, if_neg h, List.map_cons, List.mem_cons, ih]
      constructor
      · exact Or.inr
      · rintro (h' | h')
        · exact absurd h'.symm h
        · exact h'

lemma findCommand_isSome_congr (n : String) (l₁ l₂ : List (String × Command))
    (h : l₁.map Prod.fst = l₂.map Prod.fst) :
    (findCommand n l₁).isSome = (findCommand n l₂).isSome := by
  cases h1 : (findCommand n l₁).isSome with
  | true =>
    have := (findCommand_isSome_iff_mem n l₂).mpr
      (h ▸ (findCommand_isSome_iff_mem n l₁).mp h1)
    exact this.symm
  | false =>
    cases h2 : (findCommand n l₂).isSome with
    | false => rfl
    | true =>
      have := (findCommand_isSome_iff_mem n l₁).mpr
        (h ▸ (findCommand_isSome_iff_mem n l₂).mp h2)
      rw [h1] at this
      exact this

lemma makeFactory_key_sets_eq :
    makeFactory.map.map Prod.fst = makeFactory.mapWithArguments.map Prod.fst := by
  decide

/-- C9: for every string `s`, each overload of `makeCommandObject` fails iff
`isValidCommandName s` is false, `getCommandNames` returns exactly the valid
names, and the key sets of the two internal maps coincide (so the
post-validation lookup of the two-argument overload never misses). -/
theorem makeCommandObject_ok (s : String) :
    (succeeds (makeCommandObject makeFactory s) = isValidCommandName makeFactory s) ∧
    (succeeds (makeCommandObjectWithArguments makeFactory s) =
      isValidCommandName makeFactory s) ∧
    (s ∈ getCommandNames makeFactory ↔ isValidCommandName makeFactory s = true) ∧
    (makeFactory.map.map Prod.fst = makeFactory.mapWithArguments.map Prod.fst) := by
  refine ⟨?_, ?_, ?_, makeFactory_key_sets_eq⟩
  · unfold makeCommandObject
    cases hv : isValidCommandName makeFactory s with
    | false => rw [if_neg (by simp [hv])]; rfl
    | true =>
      rw [if_pos rfl]
      unfold isValidCommandName at hv
      cases hf : findCommand s makeFactory.map with
      | none => rw [hf] at hv; simp at hv
      | some c => rfl
  · unfold makeCommandObjectWithArguments
    cases hv : isValidCommandName makeFactory s with
    | false => rw [if_neg (by simp [hv])]; rfl
    | true =>
      rw [if_pos rfl]
      have hv' : (findCommand s makeFactory.mapWithArguments).isSome = true := by
        rw [← findCommand_isSome_congr s makeFactory.map makeFactory.mapWithArguments
          makeFactory_key_sets_eq]
        exact hv
      cases hf : findCommand s makeFactory.mapWithArguments with
      | none => rw [hf] at hv'; simp at hv'
      | some c => rfl
  · unfold getCommandNames isValidCommandName
    exact (findCommand_isSome_iff_mem s makeFactory.map).symm

lemma distinctProcidFileCount_eq_length (dir : List SyncFile)
    (hN : (dir.map SyncFile.name).Nodup)
    (hP : ∀ f ∈ dir, strStartsWith f.name "slurm-procid-" = true) :
    distinctProcidFileCount dir = dir.length := by
  unfold distinctProcidFileCount
  have hfilter : (dir.map SyncFile.name).filter (fun n => strStartsWith n "slurm-procid-")
      = dir.map SyncFile.name := by
    apply List.filter_eq_self.mpr
    intro n hn
    rcases List.mem_map.mp hn with ⟨f, hf, rfl⟩
    exact hP f hf
  rw [hfilter, List.dedup_eq_self.mpr hN, List.length_map]

/-- C4: spec-modelled — in any rendezvous state whose marker files are
distinct `slurm-procid-*` files (as produced by `signalArrival` and
`signalDeparture`), `allInstancesArrived` returns true iff exactly
`SLURM_NTASKS` distinct `slurm-procid-*` files exist under `arrival/`, and
symmetrically for `allInstancesDeparted` and `departure/`. -/
theorem allInstances_iff_distinct_count (s : SyncDir) (ntasks : Nat)
    (harrN : (s.arrival.map SyncFile.name).Nodup)
    (harrP : ∀ f ∈ s.arrival, strStartsWith f.name "slurm-procid-" = true)
    (hdepN : (s.departure.map SyncFile.name).Nodup)
    (hdepP : ∀ f ∈ s.departure, strStartsWith f.name "slurm-procid-" = true) :
    (allInstancesArrived ntasks s = true ↔ distinctProcidFileCount s.arrival = ntasks) ∧
    (allInstancesDeparted ntasks s = true ↔ distinctProcidFileCount s.departure = ntasks) := by
  constructor
  · unfold allInstancesArrived
    rw [distinctProcidFileCount_eq_length s.arrival harrN harrP, beq_iff_eq]
  · unfold allInstancesDeparted
    rw [distinctProcidFileCount_eq_length s.departure hdepN hdepP, beq_iff_eq]

/-- Witness for C4: with two distinct marker files and `SLURM_NTASKS = 2`,
both barriers report completion iff the distinct count is 2. -/
theorem allInstances_iff_distinct_count_witness :
    (allInstancesArrived 2 demoSyncDir = true ↔
      distinctProcidFileCount demoSyncDir.arrival = 2) ∧
    (allInstancesDeparted 2 demoSyncDir = true ↔
      distinctProcidFileCount demoSyncDir.departure = 2) :=
  allInstances_iff_distinct_count demoSyncDir 2 (by decide) (by decide) (by decide) (by decide)

/-- C5: spec-modelled — when no marker of this process exists yet,
`signalArrival` creates `arrival/slurm-procid-<P>` owned by the invoking
uid/gid of the invoking user; it is idempotent, and after calling it twice exactly one such
file exists. -/
theorem signalArrival_owned_and_idempotent (uid gid procid : Nat) (s : SyncDir)
    (habs : s.arrival.any (fun f => f.name == procidFileName procid) = false) :
    (SyncFile.mk (procidFileName procid) uid gid) ∈ (signalArrival uid gid procid s).arrival ∧
    signalArrival uid gid procid (signalArrival uid gid procid s) =
      signalArrival uid gid procid s ∧
    ((signalArrival uid gid procid s).arrival.countP
      (fun f => f.name == procidFileName procid)) = 1 := by
  have habs' : ¬ (s.arrival.any (fun f => f.name == procidFileName procid) = true) := by
    simp [habs]
  have happ : (signalArrival uid gid procid s).arrival =
      s.arrival ++ [⟨procidFileName procid, uid, gid⟩] := by
    unfold signalArrival createFileIfNecessary
    rw [if_neg habs']
  refine ⟨?_, ?_, ?_⟩
  · rw [happ]
    exact List.mem_append.mpr (Or.inr (by simp))
  · have hpresent : ((signalArrival uid gid procid s).arrival.any
        (fun f => f.name == procidFileName procid)) = true := by
      rw [happ]
      simp
    show signalArrival uid gid procid (signalArrival uid gid procid s) =
      signalArrival uid gid procid s
    unfold signalArrival createFileIfNecessary
    rw [if_pos (by exact hpresent)]
  · rw [happ, List.countP_append]
    have h0 : s.arrival.countP (fun f => f.name == procidFileName procid) = 0 := by
      apply List.countP_eq_zero.mpr
      intro f hf
      have := List.any_eq_false.mp habs f hf
      simpa using this
    rw [h0]
    simp

/-- Witness for C5: signalling arrival of procid 0 in the empty state creates
exactly one marker file owned by uid/gid 1000. -/
theorem signalArrival_owned_and_idempotent_witness :
    (SyncFile.mk (procidFileName 0) 1000 1000) ∈
      (signalArrival 1000 1000 0 emptySyncDir).arrival ∧
    signalArrival 1000 1000 0 (signalArrival 1000 1000 0 emptySyncDir) =
      signalArrival 1000 1000 0 emptySyncDir ∧
    ((signalArrival 1000 1000 0 emptySyncDir).arrival.countP
      (fun f => f.name == procidFileName 0)) = 1 :=
  signalArrival_owned_and_idempotent 1000 1000 0 emptySyncDir rfl

/-- C6: spec-modelled — the hook participates iff
`SARUS_SLURM_GLOBAL_SYNC_HOOK=1` is present in `process.env` and
`SLURM_JOB_ID`, `SLURM_STEPID`, `SLURM_PROCID`, `SLURM_NTASKS` are all set;
when the activation condition fails, `performSynchronization` completes
without error and performs no synchronization at all. -/
theorem performSynchronization_activation (env : List String)
    (doSync : SyncDir → Except String SyncDir) (s : SyncDir) :
    (isHookEnabled env = true ↔
      ("SARUS_SLURM_GLOBAL_SYNC_HOOK=1" ∈ env ∧
       (∃ e ∈ env, strStartsWith e "SLURM_JOB_ID=" = true) ∧
       (∃ e ∈ env, strStartsWith e "SLURM_STEPID=" = true) ∧
       (∃ e ∈ env, strStartsWith e "SLURM_PROCID=" = true) ∧
       (∃ e ∈ env, strStartsWith e "SLURM_NTASKS=" = true))) ∧
    (isHookEnabled env = false → performSynchronization doSync env s = Except.ok s) := by
  constructor
  · unfold isHookEnabled activationVariableIsPresent envVarIsSet
    simp only [Bool.and_eq_true, List.any_eq_true, beq_iff_eq]
    constructor
    · rintro ⟨⟨⟨⟨⟨e0, he0, rfl⟩, h1⟩, h2⟩, h3⟩, h4⟩
      exact ⟨he0, h1, h2, h3, h4⟩
    · rintro ⟨h0, h1, h2, h3, h4⟩
      exact ⟨⟨⟨⟨⟨_, h0, rfl⟩, h1⟩, h2⟩, h3⟩, h4⟩
  · intro h
    unfold performSynchronization
    rw [if_neg (by simp [h])]

/-- Witness for C6: with an environment lacking the activation and SLURM
variables, `performSynchronization` is a successful no-op even when the
synchronization body itself would fail. -/
theorem performSynchronization_activation_witness :
    performSynchronization failingSync ["PATH=/bin"] emptySyncDir =
      Except.ok emptySyncDir :=
  (performSynchronization_activation ["PATH=/bin"] failingSync emptySyncDir).2 (by decide)

lemma count_map_exportLine (kv : String × String) (env : List (String × String))
    (hinj : ∀ kv2 ∈ env, exportLine kv2 = exportLine kv → kv2 = kv) :
    (env.map exportLine).count (exportLine kv) = env.count kv := by
  induction env with
  | nil => rfl
  | cons a l ih =>
    simp only [List.map_cons, List.count_cons]
    rw [ih (fun kv2 h2 => hinj kv2 (List.mem_cons_of_mem a h2))]
    congr 1
    by_cases h : a = kv
    · subst h; simp
    · have hne : ¬ exportLine a = exportLine kv :=
        fun he => h (hinj a (List.mem_cons_self a l) he)
      simp [h, hne]

/-- C7, as amended: after `startSshDaemon`, the dropbear environment file has
mode 0744 (not the 0644 the claim states: the in-tree test
`Helper::checkContainerHasEnvironmentFile` requires
`owner_all | group_read | others_read`), starts with the `#!/bin/sh` line,
holds one `export KEY="VALUE"` line per entry of `process.env` (exactly one
per entry, counted among the lines after the shebang), and
`/etc/profile.d/ssh-hook.sh` sources `/opt/oci-hooks/dropbear/environment`
exactly when `$SSH_CONNECTION` is set. -/
theorem environmentFile_and_profile_module (env : List (String × String))
    (kv : String × String) (sshConnection : Option String)
    (hinj : ∀ kv2 ∈ env, exportLine kv2 = exportLine kv → kv2 = kv) :
    (environmentFile env).mode = 0o744 ∧
    (environmentFile env).lines.head? = some "#!/bin/sh" ∧
    (environmentFile env).lines.length = env.length + 1 ∧
    (environmentFile env).lines.tail.count (exportLine kv) = env.count kv ∧
    (profileModuleSourcedFile sshConnection = some dropbearEnvironmentPath ↔
      ∃ v, sshConnection = some v ∧ v ≠ "") := by
  refine ⟨rfl, rfl, by simp [environmentFile], ?_, ?_⟩
  · show (env.map exportLine).count (exportLine kv) = env.count kv
    exact count_map_exportLine kv env hinj
  · unfold profileModuleSourcedFile
    cases sshConnection with
    | none => simp
    | some v =>
      by_cases hv : v = ""
      · subst hv; simp
      · simp [hv]

/-- Witness for C7: on the S5 environment, the environment file has the
shebang first, four lines, exactly one export line for `TEST1`, and the
profile module sources the environment file for a set `SSH_CONNECTION`. -/
theorem environmentFile_and_profile_module_witness :
    (environmentFile demoEnv).mode = 0o744 ∧
    (environmentFile demoEnv).lines.head? = some "#!/bin/sh" ∧
    (environmentFile demoEnv).lines.length = demoEnv.length + 1 ∧
    (environmentFile demoEnv).lines.tail.count
      (exportLine ("TEST1", "VariableTest1")) = demoEnv.count ("TEST1", "VariableTest1") ∧
    (profileModuleSourcedFile (some "10.0.0.1 22 10.0.0.2 22") =
        some dropbearEnvironmentPath ↔
      ∃ v, (some "10.0.0.1 22 10.0.0.2 22" : Option String) = some v ∧ v ≠ "") :=
  environmentFile_and_profile_module demoEnv ("TEST1", "VariableTest1")
    (some "10.0.0.1 22 10.0.0.2 22") (by decide)

/-- Counterexample to C7 as stated: on the S5 environment the dropbear
environment file written by the hook has mode 0744 — the permissions the
in-tree test `Helper::checkContainerHasEnvironmentFile` requires
(`owner_all | group_read | others_read`) — and therefore not the mode 0644
the claim asserts. -/
theorem environmentFile_mode_not_0644 :
    (environmentFile demoEnv).mode = 0o744 ∧ (environmentFile demoEnv).mode ≠ 0o644 :=
  ⟨rfl, by decide⟩

/-- C8: spec-modelled — whenever the container has no glibc installation, or
its glibc version is greater than or equal to the host's,
`injectGlibcLibrariesIfNecessary` leaves the rootfs identical and exits 0,
whatever the replacement step would have done. -/
theorem injectGlibc_noop {α : Type} (replace : α → α)
    (hostVersion : GlibcVersion) (containerLibc : Option GlibcVersion) (rootfs : α)
    (h : containerLibc = none ∨
      ∃ v, containerLibc = some v ∧ containerGlibcIsNewerOrSame v hostVersion = true) :
    injectGlibcLibrariesIfNecessary replace hostVersion containerLibc rootfs =
      (rootfs, 0) := by
  rcases h with rfl | ⟨v, rfl, hge⟩
  · rfl
  · show (if containerGlibcIsNewerOrSame v hostVersion = true then (rootfs, 0)
      else (replace rootfs, 0)) = (rootfs, 0)
    rw [if_pos hge]

/-- Witness for C8: with host glibc 2.31 and container glibc 2.36 (scenario
S6), the hook returns the rootfs unchanged with exit code 0, even though the
replacement step would have modified it. -/
theorem injectGlibc_noop_witness :
    injectGlibcLibrariesIfNecessary Nat.succ (2, 31) (some (2, 36)) 42 = (42, 0) :=
  injectGlibc_noop Nat.succ (2, 31) (some (2, 36)) 42
    (Or.inr ⟨(2, 36), rfl, by decide⟩)

end Sarus
